import Mathlib

/-!
# FIRE projection engine: a shallow embedding

This file embeds the FIRE ("Financial Independence, Retire Early")
projection engine of the repository into Lean.  The engine is the
function `calculateFire` of `fire-calculations.ts`: a pure function from
an input snapshot to a year-by-year projection plus summary figures.

Numbers are modelled as rationals (`ℚ`); currency outputs are integers
(`ℤ`) rounded to the nearest 1000 by the JavaScript `Math.round` on the
quotient, which is `⌊q + 1/2⌋` (round half toward positive infinity).
The wall-clock calendar year read by the source at call time is an
explicit parameter `startYear` of the embedded function.
-/

namespace FireCalc

/-- JavaScript `Math.round`: round to nearest integer, half toward `+∞`,
i.e. `⌊q + 1/2⌋`. -/
def jsRound (q : ℚ) : ℤ := ⌊q + 1/2⌋

/-- `Math.round(v / 1000) * 1000`: the output rounding used for every
currency figure. -/
def roundK (v : ℚ) : ℤ := jsRound (v / 1000) * 1000

/-- `contributionMode`: `"fixed" | "salaryPercent"`. -/
inductive ContributionMode
  | fixed
  | salaryPercent
deriving DecidableEq

/-- A one-time cash event (`windfallSchema` in `shared/schema.ts`,
restricted to the fields the engine reads). -/
structure Windfall where
  amount : ℚ
  ageReceived : ℤ
deriving DecidableEq

/-- The engine's input snapshot (`FireInputs`). -/
structure FireInputs where
  startingInvestments : ℚ
  monthlyContributions : ℚ
  contributionMode : ContributionMode
  annualSalary : ℚ
  salaryContributionPercent : ℚ
  salaryAnnualRaisePercent : ℚ
  currentAge : ℤ
  annualExpenses : ℚ
  annualReturn : ℚ
  inflationRate : ℚ
  withdrawalRate : ℚ
  windfalls : List Windfall
  adjustContributionsForInflation : Bool

/-- Per-row status tag: `"short" | "windfall" | "fire"`. -/
inductive Status
  | short
  | windfall
  | fire
deriving DecidableEq

/-- One element of `projectionData` (rounded output values). -/
structure ProjectionRow where
  age : ℤ
  year : ℤ
  investmentValue : ℤ
  annualContribution : ℤ
  potentialWithdrawalNominal : ℤ
  potentialWithdrawalReal : ℤ
  fireTarget : ℤ
  windfallAmount : Option ℤ
  investmentGrowth : ℤ
  status : Status
deriving DecidableEq

/-- The engine's result record (`FireCalculationResult`). -/
structure FireCalculationResult where
  realFireNumber : ℤ
  nominalFireNumber : ℤ
  achievableAge : ℤ
  yearsToRetirement : ℤ
  projectionData : List ProjectionRow
deriving DecidableEq

/-- The mutable state of the projection loop: the running (unrounded)
balance `currentInvestments`, the simulated `age`, the `fireAchieved`
flag and the tentative `achievableAge`. -/
structure SimState where
  currentInvestments : ℚ
  age : ℤ
  fireAchieved : Bool
  achievableAge : ℤ
deriving DecidableEq

/-- One iteration of the projection loop of `calculateFire`
(loop body for index `year`): returns the updated state and the row
pushed onto `projectionData`. -/
def simBody (I : FireInputs) (startYear : ℤ) (realFireNumber : ℚ)
    (year : ℕ) (s : SimState) : SimState × ProjectionRow :=
  let yearsFromNow := year
  let fireTarget := realFireNumber * (1 + I.inflationRate / 100) ^ yearsFromNow
  let annualContribution :=
    match I.contributionMode with
    | .salaryPercent =>
        let salaryThisYear :=
          I.annualSalary * (1 + I.salaryAnnualRaisePercent / 100) ^ yearsFromNow
        salaryThisYear * (I.salaryContributionPercent / 100)
    | .fixed =>
        let baseAnnualContribution := I.monthlyContributions * 12
        if I.adjustContributionsForInflation then
          baseAnnualContribution * (1 + I.inflationRate / 100) ^ yearsFromNow
        else
          baseAnnualContribution
  let afterContribution := s.currentInvestments + annualContribution
  let windfall := I.windfalls.find? (fun w => w.ageReceived == s.age)
  let windfallAmount :=
    match windfall with
    | some w => w.amount
    | none => 0
  let preGrowthValue := afterContribution + windfallAmount
  let currentInvestments := preGrowthValue * (1 + I.annualReturn / 100)
  let investmentGrowth := currentInvestments - preGrowthValue
  let potentialWithdrawalNominal := currentInvestments * (I.withdrawalRate / 100)
  let potentialWithdrawalReal :=
    potentialWithdrawalNominal / (1 + I.inflationRate / 100) ^ yearsFromNow
  let statusPre : Status := if windfall.isSome then .windfall else .short
  let fs : Bool × ℤ × Status :=
    if fireTarget ≤ currentInvestments ∧ s.fireAchieved = false then
      (true, s.age, Status.fire)
    else if s.fireAchieved then
      (s.fireAchieved, s.achievableAge, Status.fire)
    else
      (s.fireAchieved, s.achievableAge, statusPre)
  let row : ProjectionRow :=
    { age := s.age
      year := startYear + year
      investmentValue := roundK currentInvestments
      annualContribution := roundK annualContribution
      potentialWithdrawalNominal := roundK potentialWithdrawalNominal
      potentialWithdrawalReal := roundK potentialWithdrawalReal
      fireTarget := roundK fireTarget
      windfallAmount := if 0 < windfallAmount then some (roundK windfallAmount) else none
      investmentGrowth := roundK investmentGrowth
      status := fs.2.2 }
  ({ currentInvestments := currentInvestments
     age := s.age + 1
     fireAchieved := fs.1
     achievableAge := fs.2.1 }, row)

/-- The projection loop `for (year = 0; year < 40 && age <= 100; year++)`,
with `fuel = 40 - year` remaining iterations.  Returns the final state and
the list of rows pushed. -/
def simLoop (I : FireInputs) (startYear : ℤ) (realFireNumber : ℚ) :
    ℕ → ℕ → SimState → SimState × List ProjectionRow
  | 0, _, s => (s, [])
  | fuel + 1, year, s =>
    if s.age ≤ 100 then
      let step := simBody I startYear realFireNumber year s
      let rest := simLoop I startYear realFireNumber fuel (year + 1) step.1
      (rest.1, step.2 :: rest.2)
    else
      (s, [])

/-- Loop state on entry (`currentInvestments = startingInvestments`,
`age = currentAge`, `fireAchieved = false`, `achievableAge = 0`). -/
def initialState (I : FireInputs) : SimState :=
  { currentInvestments := I.startingInvestments
    age := I.currentAge
    fireAchieved := false
    achievableAge := 0 }

/-- The embedded engine `calculateFire`.  `startYear` is the wall-clock
calendar year the source reads once at call time. -/
def calculateFire (I : FireInputs) (startYear : ℤ) : FireCalculationResult :=
  let realFireNumber := I.annualExpenses / (I.withdrawalRate / 100)
  let final := simLoop I startYear realFireNumber 40 0 (initialState I)
  let achievableAge := if final.1.fireAchieved then final.1.achievableAge else final.1.age - 1
  let yearsToRetirement := achievableAge - I.currentAge
  let nominalFireNumber :=
    realFireNumber * (1 + I.inflationRate / 100) ^ yearsToRetirement
  { realFireNumber := roundK realFireNumber
    nominalFireNumber := roundK nominalFireNumber
    achievableAge := achievableAge
    yearsToRetirement := yearsToRetirement
    projectionData := final.2 }

/-- Unguarded iteration of the loop body: `iterStates k year s` is the
state after running `simBody` for loop indices `year, year+1, …,
year+k-1` starting from `s`. -/
def iterStates (I : FireInputs) (startYear : ℤ) (realFireNumber : ℚ) :
    ℕ → ℕ → SimState → SimState
  | 0, _, s => s
  | k + 1, year, s =>
    iterStates I startYear realFireNumber k (year + 1)
      (simBody I startYear realFireNumber year s).1

/-- The engine's unrounded end-of-year balance after `n` simulated years
(`balanceAt I sy 0` is the starting balance). -/
def balanceAt (I : FireInputs) (startYear : ℤ) (n : ℕ) : ℚ :=
  (iterStates I startYear (I.annualExpenses / (I.withdrawalRate / 100)) n 0
    (initialState I)).currentInvestments

/-- The contribution formula exactly as the specification states it
(spec-side definition, for comparison with the engine's loop body). -/
def specContribution (I : FireInputs) (year : ℕ) : ℚ :=
  match I.contributionMode with
  | .salaryPercent =>
      I.annualSalary * (1 + I.salaryAnnualRaisePercent / 100) ^ year *
        (I.salaryContributionPercent / 100)
  | .fixed =>
      if I.adjustContributionsForInflation then
        I.monthlyContributions * 12 * (1 + I.inflationRate / 100) ^ year
      else
        I.monthlyContributions * 12

/-- The windfall credited in simulated year `year` (age
`currentAge + year`): the amount of the first windfall in input order
whose `ageReceived` matches, else `0`. -/
def specWindfall (I : FireInputs) (year : ℕ) : ℚ :=
  match I.windfalls.find? (fun w => w.ageReceived == I.currentAge + year) with
  | some w => w.amount
  | none => 0

/-- Round half away from zero on the quotient, then rescale: the rounding
policy exactly as the specification's words state it (spec-side
definition, for comparison with `roundK`). -/
def specRoundHalfAway (q : ℚ) : ℤ :=
  if 0 ≤ q then ⌊q + 1/2⌋ else -⌊-q + 1/2⌋

/-- The specification's claimed output rounding:
`roundHalfAwayFromZero(v / 1000) * 1000`. -/
def specRoundHalfAwayK (v : ℚ) : ℤ := specRoundHalfAway (v / 1000) * 1000

/-! ## Structural lemmas about one loop iteration -/

theorem simBody_age (I : FireInputs) (sy : ℤ) (rfn : ℚ) (year : ℕ) (s : SimState) :
    (simBody I sy rfn year s).1.age = s.age + 1 := rfl

theorem simBody_row_age (I : FireInputs) (sy : ℤ) (rfn : ℚ) (year : ℕ) (s : SimState) :
    (simBody I sy rfn year s).2.age = s.age := rfl

theorem simBody_status_iff (I : FireInputs) (sy : ℤ) (rfn : ℚ) (year : ℕ) (s : SimState) :
    (simBody I sy rfn year s).2.status = Status.fire ↔
      (simBody I sy rfn year s).1.fireAchieved = true := by
  simp only [simBody]
  split_ifs with h1 h2 <;> simp_all

theorem simBody_mono (I : FireInputs) (sy : ℤ) (rfn : ℚ) (year : ℕ) (s : SimState)
    (h : s.fireAchieved = true) :
    (simBody I sy rfn year s).1.fireAchieved = true ∧
      (simBody I sy rfn year s).1.achievableAge = s.achievableAge := by
  simp only [simBody]
  split_ifs with h1 h2 <;> simp_all

theorem simBody_not_achieved (I : FireInputs) (sy : ℤ) (rfn : ℚ) (year : ℕ) (s : SimState)
    (h : (simBody I sy rfn year s).1.fireAchieved = false) :
    s.fireAchieved = false ∧ (simBody I sy rfn year s).1.achievableAge = s.achievableAge := by
  revert h
  simp only [simBody]
  split_ifs with h1 h2 <;> simp_all

theorem simBody_new_fire (I : FireInputs) (sy : ℤ) (rfn : ℚ) (year : ℕ) (s : SimState)
    (h0 : s.fireAchieved = false) (h : (simBody I sy rfn year s).1.fireAchieved = true) :
    (simBody I sy rfn year s).1.achievableAge = s.age := by
  revert h
  simp only [simBody]
  split_ifs with h1 h2 <;> simp_all

/-! ## Structural lemmas about the projection loop -/

theorem simLoop_length (I : FireInputs) (sy : ℤ) (rfn : ℚ) :
    ∀ (fuel year : ℕ) (s : SimState),
      ((simLoop I sy rfn fuel year s).2).length = min fuel (101 - s.age).toNat
  | 0, _, s => by
      simp only [simLoop, List.length_nil]
      omega
  | fuel + 1, year, s => by
      rw [simLoop]
      split_ifs with h
      · have ih := simLoop_length I sy rfn fuel (year + 1) (simBody I sy rfn year s).1
        simp only [List.length_cons, ih, simBody_age]
        omega
      · simp only [List.length_nil]
        omega

theorem simLoop_final_age (I : FireInputs) (sy : ℤ) (rfn : ℚ) :
    ∀ (fuel year : ℕ) (s : SimState),
      (simLoop I sy rfn fuel year s).1.age =
        s.age + ((simLoop I sy rfn fuel year s).2).length
  | 0, _, s => by simp [simLoop]
  | fuel + 1, year, s => by
      rw [simLoop]
      split_ifs with h
      · have ih := simLoop_final_age I sy rfn fuel (year + 1) (simBody I sy rfn year s).1
        simp only [List.length_cons, ih, simBody_age]
        push_cast
        ring
      · simp [simLoop]

theorem simLoop_row_age (I : FireInputs) (sy : ℤ) (rfn : ℚ) :
    ∀ (fuel year : ℕ) (s : SimState) (k : ℕ) (r : ProjectionRow),
      ((simLoop I sy rfn fuel year s).2)[k]? = some r → r.age = s.age + k
  | 0, _, s, k, r => by simp [simLoop]
  | fuel + 1, year, s, k, r => by
      rw [simLoop]
      split_ifs with h
      · match k with
        | 0 =>
            intro hr
            simp only [List.getElem?_cons_zero, Option.some.injEq] at hr
            rw [← hr, simBody_row_age]
            simp
        | k + 1 =>
            intro hr
            simp only [List.getElem?_cons_succ] at hr
            have ih := simLoop_row_age I sy rfn fuel (year + 1)
              (simBody I sy rfn year s).1 k r hr
            rw [ih, simBody_age]
            push_cast
            ring
      · simp

theorem simLoop_age_le (I : FireInputs) (sy : ℤ) (rfn : ℚ) :
    ∀ (fuel year : ℕ) (s : SimState) (r : ProjectionRow),
      r ∈ (simLoop I sy rfn fuel year s).2 → r.age ≤ 100
  | 0, _, s, r => by simp [simLoop]
  | fuel + 1, year, s, r => by
      rw [simLoop]
      split_ifs with h
      · intro hr
        rcases List.mem_cons.mp hr with hr | hr
        · rw [hr, simBody_row_age]; exact h
        · exact simLoop_age_le I sy rfn fuel (year + 1) (simBody I sy rfn year s).1 r hr
      · simp

theorem simLoop_frozen (I : FireInputs) (sy : ℤ) (rfn : ℚ) :
    ∀ (fuel year : ℕ) (s : SimState), s.fireAchieved = true →
      (simLoop I sy rfn fuel year s).1.fireAchieved = true ∧
        (simLoop I sy rfn fuel year s).1.achievableAge = s.achievableAge
  | 0, _, s => by simp [simLoop]
  | fuel + 1, year, s => by
      intro hs
      rw [simLoop]
      split_ifs with h
      · obtain ⟨h1, h2⟩ := simBody_mono I sy rfn year s hs
        obtain ⟨h3, h4⟩ := simLoop_frozen I sy rfn fuel (year + 1) (simBody I sy rfn year s).1 h1
        exact ⟨h3, h4.trans h2⟩
      · exact ⟨hs, rfl⟩

theorem simLoop_fire_suffix (I : FireInputs) (sy : ℤ) (rfn : ℚ) :
    ∀ (fuel year : ℕ) (s : SimState), s.fireAchieved = true →
      ∀ r ∈ (simLoop I sy rfn fuel year s).2, r.status = Status.fire
  | 0, _, s => by simp [simLoop]
  | fuel + 1, year, s => by
      intro hs r
      rw [simLoop]
      split_ifs with h
      · intro hr
        rcases List.mem_cons.mp hr with hr | hr
        · rw [hr]
          exact (simBody_status_iff I sy rfn year s).mpr (simBody_mono I sy rfn year s hs).1
        · exact simLoop_fire_suffix I sy rfn fuel (year + 1) (simBody I sy rfn year s).1
            (simBody_mono I sy rfn year s hs).1 r hr
      · simp

theorem simLoop_mono (I : FireInputs) (sy : ℤ) (rfn : ℚ) :
    ∀ (fuel year : ℕ) (s : SimState) (i j : ℕ) (ri rj : ProjectionRow), i < j →
      ((simLoop I sy rfn fuel year s).2)[i]? = some ri →
      ((simLoop I sy rfn fuel year s).2)[j]? = some rj →
      ri.status = Status.fire → rj.status = Status.fire
  | 0, _, s, i, j, ri, rj => by simp [simLoop]
  | fuel + 1, year, s, i, j, ri, rj => by
      intro hij hi hj hfire
      rw [simLoop] at hi hj
      split_ifs at hi hj with h
      · match i, j with
        | 0, j + 1 =>
            simp only [List.getElem?_cons_zero, Option.some.injEq] at hi
            simp only [List.getElem?_cons_succ] at hj
            have hach : (simBody I sy rfn year s).1.fireAchieved = true := by
              apply (simBody_status_iff I sy rfn year s).mp
              rw [hi]
              exact hfire
            exact simLoop_fire_suffix I sy rfn fuel (year + 1) (simBody I sy rfn year s).1
              hach rj (by
                have := List.getElem?_eq_some_iff.mp hj
                obtain ⟨hlt, hget⟩ := this
                rw [← hget]
                exact List.getElem_mem hlt)
        | i + 1, j + 1 =>
            simp only [List.getElem?_cons_succ] at hi hj
            exact simLoop_mono I sy rfn fuel (year + 1) (simBody I sy rfn year s).1
              i j ri rj (by omega) hi hj hfire
      · simp at hi

theorem simLoop_first_fire (I : FireInputs) (sy : ℤ) (rfn : ℚ) :
    ∀ (fuel year : ℕ) (s : SimState), s.fireAchieved = false →
      ((simLoop I sy rfn fuel year s).1.fireAchieved = true →
        (((simLoop I sy rfn fuel year s).2).find?
            (fun r => r.status == Status.fire)).map ProjectionRow.age =
          some (simLoop I sy rfn fuel year s).1.achievableAge) ∧
      ((simLoop I sy rfn fuel year s).1.fireAchieved = false →
        ((simLoop I sy rfn fuel year s).2).find? (fun r => r.status == Status.fire) = none ∧
          (simLoop I sy rfn fuel year s).1.achievableAge = s.achievableAge)
  | 0, _, s => by
      intro hs
      simp [simLoop, hs]
  | fuel + 1, year, s => by
      intro hs
      rw [simLoop]
      split_ifs with h
      · by_cases hach : (simBody I sy rfn year s).1.fireAchieved = true
        · have hrow : (simBody I sy rfn year s).2.status = Status.fire :=
            (simBody_status_iff I sy rfn year s).mpr hach
          have hfind : ((simBody I sy rfn year s).2 ::
              (simLoop I sy rfn fuel (year + 1) (simBody I sy rfn year s).1).2).find?
                (fun r => r.status == Status.fire) = some (simBody I sy rfn year s).2 := by
            apply List.find?_cons_of_pos
            simp [hrow]
          obtain ⟨hfr, hfa⟩ := simLoop_frozen I sy rfn fuel (year + 1)
            (simBody I sy rfn year s).1 hach
          constructor
          · intro _
            rw [hfind, Option.map_some', hfa, simBody_new_fire I sy rfn year s hs hach,
              simBody_row_age]
          · intro hcon
            rw [hfr] at hcon
            cases hcon
        · have hach' : (simBody I sy rfn year s).1.fireAchieved = false := by
            revert hach
            cases (simBody I sy rfn year s).1.fireAchieved <;> simp
          have hrow : ¬ (simBody I sy rfn year s).2.status = Status.fire := by
            intro hc
            rw [(simBody_status_iff I sy rfn year s).mp hc] at hach'
            cases hach'
          have hfind : ∀ l : List ProjectionRow, ((simBody I sy rfn year s).2 :: l).find?
              (fun r => r.status == Status.fire) = l.find? (fun r => r.status == Status.fire) := by
            intro l
            apply List.find?_cons_of_neg
            simp [hrow]
          obtain ⟨hfa0, hfaa⟩ := simBody_not_achieved I sy rfn year s hach'
          obtain ⟨ih1, ih2⟩ := simLoop_first_fire I sy rfn fuel (year + 1)
            (simBody I sy rfn year s).1 hach'
          constructor
          · intro hfr
            rw [hfind]
            exact ih1 hfr
          · intro hfr
            obtain ⟨iha, ihb⟩ := ih2 hfr
            exact ⟨by rw [hfind]; exact iha, ihb.trans hfaa⟩
      · simp [hs]

/-! ## The loop as iterated loop body -/

theorem iterStates_succ_right (I : FireInputs) (sy : ℤ) (rfn : ℚ) :
    ∀ (k year : ℕ) (s : SimState),
      iterStates I sy rfn (k + 1) year s =
        (simBody I sy rfn (year + k) (iterStates I sy rfn k year s)).1
  | 0, year, s => by simp [iterStates]
  | k + 1, year, s => by
      rw [iterStates, iterStates_succ_right I sy rfn k (year + 1) (simBody I sy rfn year s).1]
      have hyk : year + 1 + k = year + (k + 1) := by omega
      rw [hyk]
      rw [iterStates]

theorem iterStates_age (I : FireInputs) (sy : ℤ) (rfn : ℚ) :
    ∀ (k year : ℕ) (s : SimState),
      (iterStates I sy rfn k year s).age = s.age + k
  | 0, _, s => by simp [iterStates]
  | k + 1, year, s => by
      rw [iterStates]
      rw [iterStates_age I sy rfn k (year + 1) (simBody I sy rfn year s).1]
      rw [simBody_age]
      push_cast
      ring

theorem simLoop_row_eq_iterStates (I : FireInputs) (sy : ℤ) (rfn : ℚ) :
    ∀ (fuel year : ℕ) (s : SimState) (n : ℕ) (r : ProjectionRow),
      ((simLoop I sy rfn fuel year s).2)[n]? = some r →
      r = (simBody I sy rfn (year + n) (iterStates I sy rfn n year s)).2
  | 0, _, s, n, r => by simp [simLoop]
  | fuel + 1, year, s, n, r => by
      intro hr
      rw [simLoop] at hr
      split_ifs at hr with h
      · match n with
        | 0 =>
            simp only [List.getElem?_cons_zero, Option.some.injEq] at hr
            rw [← hr]
            simp [iterStates]
        | n + 1 =>
            simp only [List.getElem?_cons_succ] at hr
            have ih := simLoop_row_eq_iterStates I sy rfn fuel (year + 1)
              (simBody I sy rfn year s).1 n r hr
            rw [ih]
            rw [iterStates]
            congr 2
            omega
      · simp at hr

theorem simLoop_age_gt (I : FireInputs) (sy : ℤ) (rfn : ℚ) :
    ∀ (fuel year : ℕ) (s : SimState), ¬ s.age ≤ 100 →
      simLoop I sy rfn fuel year s = (s, [])
  | 0, _, _, _ => rfl
  | fuel + 1, year, s, h => by
      rw [simLoop, if_neg h]

theorem calculateFire_projectionData (I : FireInputs) (sy : ℤ) :
    (calculateFire I sy).projectionData =
      (simLoop I sy (I.annualExpenses / (I.withdrawalRate / 100)) 40 0 (initialState I)).2 :=
  rfl

/-! ## The claims -/

/-- C9: Totality.  For every input — all numeric fields arbitrary,
including a zero or negative `withdrawalRate` — the engine returns a
structurally complete result: `projectionData` has exactly
`min 40 (101 - currentAge)⁺` rows (the number of loop iterations), with
no precondition on any monetary field.  In the rational-number model the
division by `withdrawalRate/100` is total, mirroring the fact that the
JavaScript engine never throws and only propagates non-finite values. -/
theorem fire_claim_C9 (I : FireInputs) (sy : ℤ) :
    (calculateFire I sy).projectionData.length = min 40 (101 - I.currentAge).toNat := by
  rw [calculateFire_projectionData]
  rw [simLoop_length I sy (I.annualExpenses / (I.withdrawalRate / 100)) 40 0 (initialState I)]
  rfl

/-- C5: Horizon bound.  For every input, `projectionData` has at most 40
rows, the row at index `k` has age `currentAge + k` (ages increase by
exactly 1 starting at `currentAge`, with no gaps), and every row's age —
in particular the last row's — is at most 100. -/
theorem fire_claim_C5 (I : FireInputs) (sy : ℤ) :
    (calculateFire I sy).projectionData.length ≤ 40 ∧
    (∀ k : ℕ, k < (calculateFire I sy).projectionData.length →
      (((calculateFire I sy).projectionData)[k]?).map ProjectionRow.age =
        some (I.currentAge + k)) ∧
    (calculateFire I sy).projectionData.all (fun r => decide (r.age ≤ 100)) = true := by
  refine ⟨?_, ?_, ?_⟩
  · rw [calculateFire_projectionData, simLoop_length]
    exact min_le_left _ _
  · intro k hk
    rw [calculateFire_projectionData] at hk ⊢
    rw [List.getElem?_eq_getElem hk, Option.map_some']
    have := simLoop_row_age I sy (I.annualExpenses / (I.withdrawalRate / 100)) 40 0
      (initialState I) k _ (List.getElem?_eq_getElem hk)
    rw [this]
    rfl
  · rw [calculateFire_projectionData, List.all_eq_true]
    intro r hr
    simpa using simLoop_age_le I sy (I.annualExpenses / (I.withdrawalRate / 100)) 40 0
      (initialState I) r hr

/-- C1: Monotonic FIRE status.  For every input and indices `i < j` into
`projectionData`, if the row at index `i` has status `fire` then so does
the row at index `j`: once assigned, FIRE status is kept for every later
row. -/
theorem fire_claim_C1 (I : FireInputs) (sy : ℤ) (i j : ℕ) (ri rj : ProjectionRow)
    (hij : i < j)
    (hi : ((calculateFire I sy).projectionData)[i]? = some ri)
    (hj : ((calculateFire I sy).projectionData)[j]? = some rj)
    (hfire : ri.status = Status.fire) : rj.status = Status.fire := by
  rw [calculateFire_projectionData] at hi hj
  exact simLoop_mono I sy (I.annualExpenses / (I.withdrawalRate / 100)) 40 0 (initialState I)
    i j ri rj hij hi hj hfire

/-- C10: Degenerate horizon.  For every input with `currentAge > 100` the
loop runs zero times: `projectionData` is empty, `achievableAge` is
`currentAge - 1`, `yearsToRetirement` is `-1`, and `nominalFireNumber`
is the real FIRE number divided by `1 + inflationRate/100` before
rounding. -/
theorem fire_claim_C10 (I : FireInputs) (sy : ℤ) (h : 100 < I.currentAge) :
    (calculateFire I sy).projectionData = [] ∧
    (calculateFire I sy).achievableAge = I.currentAge - 1 ∧
    (calculateFire I sy).yearsToRetirement = -1 ∧
    (calculateFire I sy).nominalFireNumber =
      roundK (I.annualExpenses / (I.withdrawalRate / 100) / (1 + I.inflationRate / 100)) := by
  have hloop := simLoop_age_gt I sy (I.annualExpenses / (I.withdrawalRate / 100)) 40 0
    (initialState I) (by simp only [initialState]; omega)
  refine ⟨?_, ?_, ?_, ?_⟩
  · rw [calculateFire_projectionData, hloop]
  · simp only [calculateFire, hloop]
    simp [initialState]
  · simp only [calculateFire, hloop]
    simp [initialState]
  · simp only [calculateFire, hloop]
    simp only [initialState]
    simp only [Bool.false_eq_true, if_false]
    have hytr : I.currentAge - 1 - I.currentAge = -1 := by ring
    rw [hytr, zpow_neg_one]
    congr 1

/-- C4: Achievable-age consistency.  For every input with a non-empty
projection: if some row has status `fire`, `achievableAge` is the age of
the first such row; if no row has status `fire`, `achievableAge` is the
last row's age; and `yearsToRetirement = achievableAge - currentAge`. -/
theorem fire_claim_C4 (I : FireInputs) (sy : ℤ)
    (h : (calculateFire I sy).projectionData ≠ []) :
    (((calculateFire I sy).projectionData.find? (fun r => r.status == Status.fire)).isSome
        = true →
      ((calculateFire I sy).projectionData.find? (fun r => r.status == Status.fire)).map
          ProjectionRow.age = some (calculateFire I sy).achievableAge) ∧
    ((calculateFire I sy).projectionData.find? (fun r => r.status == Status.fire) = none →
      ((calculateFire I sy).projectionData.getLast?).map ProjectionRow.age =
        some (calculateFire I sy).achievableAge) ∧
    (calculateFire I sy).yearsToRetirement =
      (calculateFire I sy).achievableAge - I.currentAge := by
  have hinit : (initialState I).fireAchieved = false := rfl
  have hff := simLoop_first_fire I sy (I.annualExpenses / (I.withdrawalRate / 100)) 40 0
    (initialState I) hinit
  have hpd := calculateFire_projectionData I sy
  refine ⟨?_, ?_, rfl⟩
  · intro hsome
    by_cases hfa : (simLoop I sy (I.annualExpenses / (I.withdrawalRate / 100)) 40 0
        (initialState I)).1.fireAchieved = true
    · have hach : (calculateFire I sy).achievableAge =
          (simLoop I sy (I.annualExpenses / (I.withdrawalRate / 100)) 40 0
            (initialState I)).1.achievableAge := by
        simp [calculateFire, hfa]
      rw [hpd, hach]
      exact hff.1 hfa
    · have hfa' : (simLoop I sy (I.annualExpenses / (I.withdrawalRate / 100)) 40 0
          (initialState I)).1.fireAchieved = false := by
        revert hfa
        cases (simLoop I sy (I.annualExpenses / (I.withdrawalRate / 100)) 40 0
          (initialState I)).1.fireAchieved <;> simp
      rw [hpd, (hff.2 hfa').1] at hsome
      cases hsome
  · intro hnone
    by_cases hfa : (simLoop I sy (I.annualExpenses / (I.withdrawalRate / 100)) 40 0
        (initialState I)).1.fireAchieved = true
    · have := hff.1 hfa
      rw [hpd] at hnone
      rw [hnone] at this
      cases this
    · have hfa' : (simLoop I sy (I.annualExpenses / (I.withdrawalRate / 100)) 40 0
          (initialState I)).1.fireAchieved = false := by
        revert hfa
        cases (simLoop I sy (I.annualExpenses / (I.withdrawalRate / 100)) 40 0
          (initialState I)).1.fireAchieved <;> simp
      have hach : (calculateFire I sy).achievableAge =
          (simLoop I sy (I.annualExpenses / (I.withdrawalRate / 100)) 40 0
            (initialState I)).1.age - 1 := by
        simp [calculateFire, hfa']
      have hlen : (simLoop I sy (I.annualExpenses / (I.withdrawalRate / 100)) 40 0
          (initialState I)).2.length ≠ 0 := by
        intro hc
        apply h
        rw [hpd]
        exact List.length_eq_zero.mp hc
      have hlast := List.getLast?_eq_getElem?
        ((simLoop I sy (I.annualExpenses / (I.withdrawalRate / 100)) 40 0 (initialState I)).2)
      have hidx : (simLoop I sy (I.annualExpenses / (I.withdrawalRate / 100)) 40 0
          (initialState I)).2.length - 1 <
          (simLoop I sy (I.annualExpenses / (I.withdrawalRate / 100)) 40 0
            (initialState I)).2.length := by omega
      have hget := List.getElem?_eq_getElem hidx
      have hage := simLoop_row_age I sy (I.annualExpenses / (I.withdrawalRate / 100)) 40 0
        (initialState I) _ _ hget
      have hfin := simLoop_final_age I sy (I.annualExpenses / (I.withdrawalRate / 100)) 40 0
        (initialState I)
      rw [hpd, hlast, hget, Option.map_some', hach, hage, hfin]
      congr 1
      have h1 : (((simLoop I sy (I.annualExpenses / (I.withdrawalRate / 100)) 40 0
          (initialState I)).2.length - 1 : ℕ) : ℤ) =
          ((simLoop I sy (I.annualExpenses / (I.withdrawalRate / 100)) 40 0
            (initialState I)).2.length : ℤ) - 1 := by omega
      rw [h1]
      ring

/-! ## The loop body recurrence (for C6) -/

theorem simBody_row_investmentValue (I : FireInputs) (sy : ℤ) (rfn : ℚ) (year : ℕ)
    (s : SimState) :
    (simBody I sy rfn year s).2.investmentValue =
      roundK ((simBody I sy rfn year s).1.currentInvestments) := rfl

theorem simBody_balance (I : FireInputs) (sy : ℤ) (rfn : ℚ) (year : ℕ) (s : SimState)
    (hage : s.age = I.currentAge + year) :
    (simBody I sy rfn year s).1.currentInvestments =
      (s.currentInvestments + specContribution I year + specWindfall I year) *
        (1 + I.annualReturn / 100) := by
  simp only [simBody, specContribution, specWindfall, hage]

theorem balanceAt_succ (I : FireInputs) (sy : ℤ) (n : ℕ) :
    balanceAt I sy (n + 1) =
      (simBody I sy (I.annualExpenses / (I.withdrawalRate / 100)) n
        (iterStates I sy (I.annualExpenses / (I.withdrawalRate / 100)) n 0
          (initialState I))).1.currentInvestments := by
  rw [balanceAt, iterStates_succ_right]
  norm_num

/-- C6: Balance recurrence.  For every input and simulated year `n`
(with `n` below the number of generated rows), the engine's unrounded
end-of-year balance satisfies
`balance_{n+1} = (balance_n + contribution_n + windfall_n) * (1 + annualReturn/100)`,
where the contribution follows the specification's per-mode formula and
the windfall is the first one matching this year's age; growth is applied
after the contribution and windfall are added.  The rounded balance of
the `n`-th output row is exactly this `balance_{n+1}` rounded. -/
theorem fire_claim_C6 (I : FireInputs) (sy : ℤ) (n : ℕ)
    (hn : n < (calculateFire I sy).projectionData.length) :
    balanceAt I sy (n + 1) =
      (balanceAt I sy n + specContribution I n + specWindfall I n) *
        (1 + I.annualReturn / 100) ∧
    (((calculateFire I sy).projectionData)[n]?).map ProjectionRow.investmentValue =
      some (roundK (balanceAt I sy (n + 1))) := by
  have hb := balanceAt_succ I sy n
  have hage : (iterStates I sy (I.annualExpenses / (I.withdrawalRate / 100)) n 0
      (initialState I)).age = I.currentAge + n := by
    rw [iterStates_age]
    rfl
  constructor
  · rw [hb, simBody_balance _ _ _ _ _ hage]
    rfl
  · rw [calculateFire_projectionData] at hn ⊢
    rw [List.getElem?_eq_getElem hn, Option.map_some']
    have hrow := simLoop_row_eq_iterStates I sy (I.annualExpenses / (I.withdrawalRate / 100))
      40 0 (initialState I) n _ (List.getElem?_eq_getElem hn)
    simp only [Nat.zero_add] at hrow
    rw [hrow, simBody_row_investmentValue, ← hb]

/-! ## Noninterference congruence (for C7 and C8) -/

theorem simLoop_congr (I J : FireInputs) (sy : ℤ) (rfnI rfnJ : ℚ)
    (hbody : ∀ (year : ℕ) (s : SimState),
      simBody I sy rfnI year s = simBody J sy rfnJ year s) :
    ∀ (fuel year : ℕ) (s : SimState),
      simLoop I sy rfnI fuel year s = simLoop J sy rfnJ fuel year s
  | 0, _, _ => rfl
  | fuel + 1, year, s => by
      simp only [simLoop, hbody year s,
        simLoop_congr I J sy rfnI rfnJ hbody fuel (year + 1) (simBody J sy rfnJ year s).1]

theorem calculateFire_congr (I J : FireInputs) (sy : ℤ)
    (hAE : I.annualExpenses = J.annualExpenses)
    (hWR : I.withdrawalRate = J.withdrawalRate)
    (hIR : I.inflationRate = J.inflationRate)
    (hSI : I.startingInvestments = J.startingInvestments)
    (hCA : I.currentAge = J.currentAge)
    (hbody : ∀ (year : ℕ) (s : SimState),
      simBody I sy (I.annualExpenses / (I.withdrawalRate / 100)) year s =
        simBody J sy (J.annualExpenses / (J.withdrawalRate / 100)) year s) :
    calculateFire I sy = calculateFire J sy := by
  have hinit : initialState I = initialState J := by
    simp [initialState, hSI, hCA]
  have hloop := simLoop_congr I J sy _ _ hbody 40 0 (initialState I)
  simp only [calculateFire]
  rw [hloop, hinit, hAE, hWR, hIR, hCA]

/-- C7: Contribution-mode exclusivity (noninterference of the unused
mode's fields).  In `salaryPercent` mode the result is unchanged under
any reassignment of `monthlyContributions` and
`adjustContributionsForInflation`; in `fixed` mode it is unchanged under
any reassignment of `annualSalary`, `salaryContributionPercent` and
`salaryAnnualRaisePercent`. -/
theorem fire_claim_C7 (I : FireInputs) (sy : ℤ) (mc sal scp sarp : ℚ) (adj : Bool) :
    (I.contributionMode = ContributionMode.salaryPercent →
      calculateFire
        { I with
          monthlyContributions := mc
          adjustContributionsForInflation := adj } sy = calculateFire I sy) ∧
    (I.contributionMode = ContributionMode.fixed →
      calculateFire
        { I with
          annualSalary := sal
          salaryContributionPercent := scp
          salaryAnnualRaisePercent := sarp } sy = calculateFire I sy) := by
  constructor
  · intro hmode
    apply calculateFire_congr <;> try rfl
    intro year s
    simp only [simBody, hmode]
  · intro hmode
    apply calculateFire_congr <;> try rfl
    intro year s
    simp only [simBody, hmode]

theorem find?_dup_age (ws₁ ws₂ : List Windfall) (w : Windfall)
    (hdup : ∃ w₀ ∈ ws₁, w₀.ageReceived = w.ageReceived) (a : ℤ) :
    (ws₁ ++ w :: ws₂).find? (fun x => x.ageReceived == a) =
      (ws₁ ++ ws₂).find? (fun x => x.ageReceived == a) := by
  rw [List.find?_append, List.find?_append]
  by_cases ha : w.ageReceived = a
  · obtain ⟨w₀, hmem, hage⟩ := hdup
    have hsome : (ws₁.find? (fun x => x.ageReceived == a)).isSome = true := by
      rw [List.find?_isSome]
      exact ⟨w₀, hmem, by simp [hage, ha]⟩
    obtain ⟨x, hx⟩ := Option.isSome_iff_exists.mp hsome
    rw [hx]
    rfl
  · rw [List.find?_cons_of_neg _ (by simp [ha])]

/-- C8: Windfall duplicate policy.  If a windfall `w` is preceded in the
input list by another windfall with the same `ageReceived`, deleting `w`
does not change the result at all: in the year whose age matches, only
the first windfall in input order is applied, and later duplicates
contribute nothing. -/
theorem fire_claim_C8 (I : FireInputs) (sy : ℤ) (ws₁ ws₂ : List Windfall) (w : Windfall)
    (hdup : ∃ w₀ ∈ ws₁, w₀.ageReceived = w.ageReceived) :
    calculateFire { I with windfalls := ws₁ ++ w :: ws₂ } sy =
      calculateFire { I with windfalls := ws₁ ++ ws₂ } sy := by
  apply calculateFire_congr <;> try rfl
  intro year s
  simp only [simBody]
  rw [find?_dup_age ws₁ ws₂ w hdup s.age]

/-! ## The rounding policy (C2) -/

/-- Inputs whose only simulated year has an annual contribution of
exactly `-500` (monthly `-125/3`), an exact rounding half-point. -/
def negHalfInput : FireInputs :=
  { startingInvestments := 0
    monthlyContributions := -125/3
    contributionMode := .fixed
    annualSalary := 0
    salaryContributionPercent := 0
    salaryAnnualRaisePercent := 0
    currentAge := 100
    annualExpenses := 0
    annualReturn := 0
    inflationRate := 0
    withdrawalRate := 4
    windfalls := []
    adjustContributionsForInflation := false }

set_option maxRecDepth 8000 in
/-- C2 counterexample: the engine's output figure for the exactly `-500`
contribution is `roundK (-500) = 0` (JavaScript `Math.round` sends the
negative half toward positive infinity), while the claimed
round-half-away-from-zero policy demands `-1000`. -/
theorem fire_claim_C2_cex :
    ((calculateFire negHalfInput 2025).projectionData[0]?).map
        ProjectionRow.annualContribution = some (roundK (-500)) ∧
    roundK (-500) = 0 ∧ specRoundHalfAwayK (-500) = -1000 := by
  refine ⟨?_, ?_, ?_⟩
  · norm_num [calculateFire, simLoop, simBody, initialState, negHalfInput, roundK, jsRound,
      List.find?]
  · norm_num [roundK, jsRound]
  · norm_num [specRoundHalfAwayK, specRoundHalfAway]

/-- C2 (amended): Rounding policy.  The output rounding `roundK` sends
`v` to the multiple of 1000 nearest to `v`, resolving exact halves
toward positive infinity (JavaScript `Math.round` on the quotient) —
not away from zero: among all multiples `1000*m`, `roundK v` is at least
as close to `v`, and an equally close competitor is never above
`roundK v`.  (In particular `roundK (-500) = 0`, not `-1000`.) -/
theorem fire_claim_C2 (v : ℚ) (m : ℤ) :
    |v - ((roundK v : ℤ) : ℚ)| ≤ |v - ((1000 * m : ℤ) : ℚ)| ∧
    (|v - ((1000 * m : ℤ) : ℚ)| = |v - ((roundK v : ℤ) : ℚ)| →
      (1000 * m : ℤ) ≤ roundK v) := by
  set q : ℚ := v / 1000 with hq
  set r : ℤ := jsRound q with hr
  have hveq : v = 1000 * q := by
    rw [hq]
    ring
  have hfl1 : (r : ℚ) ≤ q + 1/2 := by
    rw [hr, jsRound]
    exact Int.floor_le _
  have hfl2 : q + 1/2 < (r : ℚ) + 1 := by
    rw [hr, jsRound]
    exact Int.lt_floor_add_one _
  have hrk : roundK v = r * 1000 := rfl
  have hdif1 : v - ((roundK v : ℤ) : ℚ) = 1000 * (q - (r : ℚ)) := by
    rw [hrk]
    push_cast
    rw [hveq]
    ring
  have hdif2 : v - ((1000 * m : ℤ) : ℚ) = 1000 * (q - (m : ℚ)) := by
    push_cast
    rw [hveq]
    ring
  have habs_r : |q - (r : ℚ)| ≤ 1/2 := abs_le.mpr ⟨by linarith, by linarith⟩
  have hcore : |q - (r : ℚ)| ≤ |q - (m : ℚ)| ∧
      (|q - (m : ℚ)| = |q - (r : ℚ)| → m ≤ r) := by
    rcases lt_trichotomy m r with hmr | hmr | hmr
    · have hc : (m : ℚ) + 1 ≤ (r : ℚ) := by
        exact_mod_cast Int.add_one_le_iff.mpr hmr
      have h2 : 1/2 ≤ q - (m : ℚ) := by linarith
      have h3 : q - (m : ℚ) ≤ |q - (m : ℚ)| := le_abs_self _
      exact ⟨by linarith, fun _ => hmr.le⟩
    · subst hmr
      exact ⟨le_refl _, fun _ => le_refl _⟩
    · have hc : (r : ℚ) + 1 ≤ (m : ℚ) := by
        exact_mod_cast Int.add_one_le_iff.mpr hmr
      have h2 : q - (m : ℚ) < -(1/2) := by linarith
      have h3 : -(q - (m : ℚ)) ≤ |q - (m : ℚ)| := neg_le_abs _
      constructor
      · linarith
      · intro heq
        rw [heq] at h3
        linarith
  constructor
  · rw [hdif1, hdif2, abs_mul, abs_mul]
    have h1000 : |(1000 : ℚ)| = 1000 := by norm_num
    rw [h1000]
    linarith [hcore.1]
  · intro heq
    rw [hdif1, hdif2, abs_mul, abs_mul] at heq
    have h1000 : |(1000 : ℚ)| = 1000 := by norm_num
    rw [h1000] at heq
    have heq' : |q - (m : ℚ)| = |q - (r : ℚ)| := by linarith
    have hmler := hcore.2 heq'
    rw [hrk]
    nlinarith [hmler]

/-- Closed instance of the amended C2 at the half-point `v = -500` with
competitor multiple `1000 * (-1) = -1000`: the competitor ties in
distance, and the tie is resolved upward (`-1000 ≤ roundK (-500)`). -/
theorem fire_claim_C2_witness :
    |(-500 : ℚ) - ((roundK (-500) : ℤ) : ℚ)| ≤ |(-500 : ℚ) - ((1000 * (-1) : ℤ) : ℚ)| ∧
    (1000 * (-1) : ℤ) ≤ roundK (-500) := by
  obtain ⟨h1, h2⟩ := fire_claim_C2 (-500) (-1)
  exact ⟨h1, h2 (by norm_num [roundK, jsRound])⟩

/-! ## Status equality reductions -/

@[simp] theorem beq_status_short_fire : (Status.short == Status.fire) = false := rfl

@[simp] theorem beq_status_windfall_fire : (Status.windfall == Status.fire) = false := rfl

@[simp] theorem beq_status_fire_fire : (Status.fire == Status.fire) = true := rfl

/-! ## Concrete scenario A (C3) -/

/-- The specification's concrete scenario A. -/
def scenarioA : FireInputs :=
  { startingInvestments := 150000
    monthlyContributions := 1200
    contributionMode := .fixed
    annualSalary := 0
    salaryContributionPercent := 0
    salaryAnnualRaisePercent := 0
    currentAge := 26
    annualExpenses := 200000
    annualReturn := 10
    inflationRate := 3
    withdrawalRate := 4
    windfalls := []
    adjustContributionsForInflation := false }

set_option maxRecDepth 8000 in
set_option maxHeartbeats 4000000 in
/-- C3 counterexample: for scenario A no row's rounded balance ever
reaches that year's rounded FIRE target — the age the claim describes
does not exist — while `achievableAge` is `65` (the horizon fallback),
so `achievableAge` cannot equal "the smallest age at which the rounded
balance ≥ the rounded target". -/
theorem fire_claim_C3_cex :
    ((calculateFire scenarioA 2025).projectionData.find?
        (fun r => r.fireTarget ≤ r.investmentValue)) = none ∧
    (calculateFire scenarioA 2025).achievableAge = 65 := by
  norm_num [calculateFire, simLoop, simBody, initialState, scenarioA, roundK, jsRound,
    List.find?]

set_option maxRecDepth 8000 in
set_option maxHeartbeats 4000000 in
/-- C3 (amended): for scenario A, FIRE is never reached inside the
40-year horizon: no row has status `fire` and no row's rounded balance
reaches that year's rounded target (so the rounded comparison agrees
with the engine's unrounded FIRE decision — both say "never").
`achievableAge` is therefore the last row's age, `65 = 26 + 39`, with
`yearsToRetirement = 39`; `realFireNumber` rounds to `5000000` and the
first-year contribution rounds to `14000`. -/
theorem fire_claim_C3 :
    ((calculateFire scenarioA 2025).projectionData.find?
        (fun r => r.fireTarget ≤ r.investmentValue)) = none ∧
    ((calculateFire scenarioA 2025).projectionData.find?
        (fun r => r.status == Status.fire)) = none ∧
    ((calculateFire scenarioA 2025).projectionData.getLast?).map ProjectionRow.age =
      some 65 ∧
    (calculateFire scenarioA 2025).achievableAge = 65 ∧
    (calculateFire scenarioA 2025).yearsToRetirement = 39 ∧
    (calculateFire scenarioA 2025).realFireNumber = 5000000 ∧
    ((calculateFire scenarioA 2025).projectionData[0]?).map
        ProjectionRow.annualContribution = some 14000 := by
  norm_num [calculateFire, simLoop, simBody, initialState, scenarioA, roundK, jsRound,
    List.find?]

/-! ## Concrete witnesses -/

/-- An instant-FIRE configuration with a two-row horizon (ages 99 and
100), used as the concrete instance of several theorems. -/
def rich99 : FireInputs :=
  { startingInvestments := 1000000
    monthlyContributions := 0
    contributionMode := .fixed
    annualSalary := 0
    salaryContributionPercent := 0
    salaryAnnualRaisePercent := 0
    currentAge := 99
    annualExpenses := 10000
    annualReturn := 0
    inflationRate := 0
    withdrawalRate := 4
    windfalls := []
    adjustContributionsForInflation := false }

/-- The fully evaluated engine output on `rich99`. -/
def rich99Result : FireCalculationResult :=
  { realFireNumber := 250000
    nominalFireNumber := 250000
    achievableAge := 99
    yearsToRetirement := 0
    projectionData :=
      [ { age := 99, year := 2025, investmentValue := 1000000, annualContribution := 0,
          potentialWithdrawalNominal := 40000, potentialWithdrawalReal := 40000,
          fireTarget := 250000, windfallAmount := none, investmentGrowth := 0,
          status := Status.fire },
        { age := 100, year := 2026, investmentValue := 1000000, annualContribution := 0,
          potentialWithdrawalNominal := 40000, potentialWithdrawalReal := 40000,
          fireTarget := 250000, windfallAmount := none, investmentGrowth := 0,
          status := Status.fire } ] }

set_option maxRecDepth 8000 in
set_option maxHeartbeats 2000000 in
theorem rich99_eval : calculateFire rich99 2025 = rich99Result := by
  norm_num [calculateFire, simLoop, simBody, initialState, rich99, rich99Result, roundK,
    jsRound, List.find?]

/-- Closed instance of C1 on `rich99`: the row at index 0 has status
`fire`, hence so does the row at index 1. -/
theorem fire_claim_C1_witness :
    ((calculateFire rich99 2025).projectionData[1]?).map ProjectionRow.status =
      some Status.fire := by
  have h0 : ((calculateFire rich99 2025).projectionData)[0]? = some
      { age := 99, year := 2025, investmentValue := 1000000, annualContribution := 0,
        potentialWithdrawalNominal := 40000, potentialWithdrawalReal := 40000,
        fireTarget := 250000, windfallAmount := none, investmentGrowth := 0,
        status := Status.fire } := by
    rw [rich99_eval]
    rfl
  have hlt : 1 < (calculateFire rich99 2025).projectionData.length := by
    rw [rich99_eval]
    norm_num [rich99Result]
  have h1 := List.getElem?_eq_getElem hlt
  have hfire := fire_claim_C1 rich99 2025 0 1 _ _ (by norm_num) h0 h1 rfl
  rw [h1, Option.map_some', hfire]

/-- Closed instance of C4 on `rich99`: the projection is non-empty, the
first `fire` row's age equals `achievableAge`, and `yearsToRetirement`
is `achievableAge - currentAge`. -/
theorem fire_claim_C4_witness :
    (calculateFire rich99 2025).projectionData ≠ [] ∧
    ((calculateFire rich99 2025).projectionData.find?
        (fun r => r.status == Status.fire)).map ProjectionRow.age =
      some (calculateFire rich99 2025).achievableAge ∧
    (calculateFire rich99 2025).yearsToRetirement =
      (calculateFire rich99 2025).achievableAge - rich99.currentAge := by
  have hne : (calculateFire rich99 2025).projectionData ≠ [] := by
    rw [rich99_eval]
    simp [rich99Result]
  have hsome : ((calculateFire rich99 2025).projectionData.find?
      (fun r => r.status == Status.fire)).isSome = true := by
    rw [rich99_eval]
    rfl
  obtain ⟨hc1, _, hc3⟩ := fire_claim_C4 rich99 2025 hne
  exact ⟨hne, hc1 hsome, hc3⟩

/-- Closed instance of C5 on `rich99`: at most 40 rows, the row at
index 0 has age `currentAge`, and all ages are at most 100. -/
theorem fire_claim_C5_witness :
    (calculateFire rich99 2025).projectionData.length ≤ 40 ∧
    ((calculateFire rich99 2025).projectionData[0]?).map ProjectionRow.age =
      some (rich99.currentAge + 0) ∧
    (calculateFire rich99 2025).projectionData.all (fun r => decide (r.age ≤ 100)) = true := by
  obtain ⟨h1, h2, h3⟩ := fire_claim_C5 rich99 2025
  refine ⟨h1, h2 0 ?_, h3⟩
  rw [rich99_eval]
  norm_num [rich99Result]

/-- Closed instance of C6 on `rich99` at `n = 0`: the first year's
end-of-year balance obeys the recurrence and rounds to the first row's
`investmentValue`. -/
theorem fire_claim_C6_witness :
    0 < (calculateFire rich99 2025).projectionData.length ∧
    balanceAt rich99 2025 1 =
      (balanceAt rich99 2025 0 + specContribution rich99 0 + specWindfall rich99 0) *
        (1 + rich99.annualReturn / 100) ∧
    ((calculateFire rich99 2025).projectionData[0]?).map ProjectionRow.investmentValue =
      some (roundK (balanceAt rich99 2025 1)) := by
  have hlt : 0 < (calculateFire rich99 2025).projectionData.length := by
    rw [rich99_eval]
    norm_num [rich99Result]
  obtain ⟨h1, h2⟩ := fire_claim_C6 rich99 2025 0 hlt
  exact ⟨hlt, h1, h2⟩

/-- Closed instance of C7 on `rich99` (`fixed` mode): reassigning all
three salary fields leaves the result unchanged. -/
theorem fire_claim_C7_witness :
    calculateFire
      { rich99 with
        annualSalary := 77000
        salaryContributionPercent := 15
        salaryAnnualRaisePercent := 3 } 2025 = calculateFire rich99 2025 :=
  (fire_claim_C7 rich99 2025 0 77000 15 3 false).2 rfl

/-- A windfall at age 100 used in the C8 witness. -/
def wfFirst : Windfall := { amount := 500, ageReceived := 100 }

/-- A second windfall sharing `ageReceived = 100`, ignored by the
engine. -/
def wfDup : Windfall := { amount := 900, ageReceived := 100 }

/-- Closed instance of C8 on `rich99`: appending a duplicate-age
windfall after `wfFirst` does not change the result. -/
theorem fire_claim_C8_witness :
    calculateFire { rich99 with windfalls := [wfFirst, wfDup] } 2025 =
      calculateFire { rich99 with windfalls := [wfFirst] } 2025 :=
  fire_claim_C8 rich99 2025 [wfFirst] [] wfDup ⟨wfFirst, by simp, rfl⟩

/-- Inputs with `currentAge = 101`, past the simulation bound. -/
def old101 : FireInputs :=
  { startingInvestments := 50000
    monthlyContributions := 100
    contributionMode := .fixed
    annualSalary := 0
    salaryContributionPercent := 0
    salaryAnnualRaisePercent := 0
    currentAge := 101
    annualExpenses := 40000
    annualReturn := 5
    inflationRate := 0
    withdrawalRate := 4
    windfalls := []
    adjustContributionsForInflation := false }

/-- Closed instance of C10 on `old101`: the projection is empty,
`achievableAge = 100`, `yearsToRetirement = -1`, and the nominal FIRE
number is the real one deflated by one year of inflation. -/
theorem fire_claim_C10_witness :
    100 < old101.currentAge ∧
    ((calculateFire old101 2025).projectionData = [] ∧
    (calculateFire old101 2025).achievableAge = old101.currentAge - 1 ∧
    (calculateFire old101 2025).yearsToRetirement = -1 ∧
    (calculateFire old101 2025).nominalFireNumber =
      roundK (old101.annualExpenses / (old101.withdrawalRate / 100) /
        (1 + old101.inflationRate / 100))) :=
  ⟨by norm_num [old101], fire_claim_C10 old101 2025 (by norm_num [old101])⟩

end FireCalc
